import Mathlib

/-!
# Verification of the calibre-comicvine metadata source

A shallow embedding of `source.py` (the `Comicvine` calibre `Source`
class) together with models of its collaborators.  The modules
`parser`, `ranking`, `utils` and `client` of the repository are not
part of the provided sources, so the functions taken from them
(`parser.normalised_title`, `ranking.keygen`, `utils.build_meta`,
`utils.find_volume_ids`, `utils.find_issue_ids`,
`utils.find_author_issue_ids`, cover-URL lookup) are modelled from the
specification; each such definition carries a doc comment starting
with Modelled from the spec:.  Everything translated directly from
`source.py` keeps the source's structure: the direct-identifier fast
path, the volume/issue/author candidate resolution, the worker-pool
enqueue loop with its shutdown event, and the cover download loop.
-/

namespace Comicvine

/-! ## Title parser (modelled from the spec, `parser.normalised_title`) -/

/-- A character that may appear in the numeric issue token: a digit or a
decimal point. -/
def isNumChar (c : Char) : Bool := c.isDigit || c = '.'

/-- Modelled from the spec: the scanning step of `parser.normalised_title`
(the `parser` module is not under `src/`).  At a position starting with a
whitespace character, try to read a nonempty numeric token (digits with an
optional decimal point) that is followed, after optional spaces, by an
opening bracket.  Returns the numeric token on success. -/
def issueTrigger (l : List Char) : Option (List Char) :=
  match l with
  | [] => none
  | c :: rest =>
    if c = ' ' then
      let num := rest.takeWhile isNumChar
      if num = [] then none
      else if ((rest.drop num.length).dropWhile (fun x => x = ' ')).head? = some '(' then
        some num
      else none
    else none

/-- Modelled from the spec: scan the title left to right for the first
whitespace-preceded numeric token followed by a bracketed group
(`parser.normalised_title` of the absent `parser` module).  On success,
return the kept prefix (everything before the numeric token, including the
preceding whitespace) and the numeric token. -/
def findIssueSplit : List Char → Option (List Char × List Char)
  | [] => none
  | c :: rest =>
    match issueTrigger (c :: rest) with
    | some num => some ([c], num)
    | none => (findIssueSplit rest).map (fun p => (c :: p.1, p.2))

/-- Modelled from the spec: strip leading zeros from a numeric token,
preserving a decimal fraction (`"01"` becomes `"1"`, `"001.5"` becomes
`"1.5"`, and a token of all zeros or `"0.5"` keeps a single leading `0`). -/
def stripLeadingZeros (s : List Char) : List Char :=
  let t := s.dropWhile (fun c => c = '0')
  if t.head? = some '.' || t = [] then '0' :: t else t

/-- Modelled from the spec: `parser.normalised_title(source, title)`
(the `parser` module is not under `src/`; its behaviour is fixed by §4.1 of
the spec and the scenarios of `test_parser.py`).  An absent (`None`) raw
title is represented by the empty string.  Returns the extracted issue
number (leading zeros stripped) and the result of the caller-supplied
tokenizer on the sanitized title. -/
def normalised_title {α : Type} (tok : String → α) (title : String) :
    Option String × α :=
  match findIssueSplit title.toList with
  | some p => (some (String.mk (stripLeadingZeros p.2)), tok (String.mk p.1))
  | none => (none, tok title)

/-! ## Data model -/

/-- Issue metadata, per the spec's `IssueMetadata` record (built by
`utils.build_meta`, which wraps a fetched issue into a calibre
`Metadata`). -/
structure IssueMeta where
  cvid : Nat
  volumeId : Nat
  title : String
  issueNumber : String
  authors : List String
  publisher : String
  pubdate : Option Nat
  comments : String
  coverUrls : List String
deriving DecidableEq

/-- One observable catalog operation performed during `identify`, used to
state which lookups a run performs. -/
inductive FetchOp where
  | issueLookup (issueId : Nat)
  | volumeSearch
  | issueFilter
  | authorLookup
deriving DecidableEq

/-- The external collaborators of `Comicvine.identify` /
`Comicvine.download_cover`: the calibre host tokenizer
(`Source.get_title_tokens`), metadata cleanup
(`Source.clean_downloaded_metadata`), and the Catalog Client boundary
(`utils.build_meta`, `utils.find_volume_ids`, `utils.find_issue_ids`,
`utils.find_author_issue_ids`, `PyComicvineWrapper`).  All are abstract
functions; `findAuthorIssueIds` returns `none` when the collaborator cannot
resolve the authors. -/
structure Catalog where
  getTitleTokens : String → List String
  buildMeta : Nat → Option IssueMeta
  clean : IssueMeta → IssueMeta
  findVolumeIds : List String → Option Nat → List Nat
  findIssueIds : List Nat → Option String → List Nat
  findAuthorIssueIds : List String → Option (List Nat)
  lookupIssueImageUrls : Nat → Bool → List String
  openNovisit : String → Option (List Nat)

/-- Association-list lookup for the `identifiers` mapping
(`identifiers.get(key)` on a Python dict). -/
def lookupId (identifiers : List (String × Nat)) (key : String) : Option Nat :=
  match identifiers with
  | [] => none
  | p :: rest => if p.1 = key then some p.2 else lookupId rest key

/-! ## `source.py` operations -/

/-- The successful body of `Comicvine.enqueue` (`source.py` lines
125-131): build the metadata for the issue, and if it is truthy, clean it
and append it to the result queue. -/
def enqueueAppend (cat : Catalog) (queue : List IssueMeta) (issueId : Nat) :
    List IssueMeta :=
  queue ++ ((cat.buildMeta issueId).map cat.clean).toList

/-- One `Comicvine.enqueue` call on the (results, operation-trace) state,
assuming the shutdown event was observed unset. -/
def enqueueStep (cat : Catalog) (st : List IssueMeta × List FetchOp)
    (issueId : Nat) : List IssueMeta × List FetchOp :=
  (enqueueAppend cat st.1 issueId, st.2 ++ [FetchOp.issueLookup issueId])

/-- `Comicvine.enqueue` (`source.py` lines 121-131): if the shutdown event
is set, raise `threading.ThreadError` (modelled as `Except.error ()`),
otherwise fetch the issue, build its metadata and append it to the
queue. -/
def enqueue (cat : Catalog) (shutdown : Bool)
    (st : List IssueMeta × List FetchOp) (issueId : Nat) :
    Except Unit (List IssueMeta × List FetchOp) :=
  if shutdown then Except.error () else Except.ok (enqueueStep cat st issueId)

/-- The candidate resolution steps of `Comicvine.identify` (`source.py`
lines 168-181): volume search from the title tokens (restricted to the
volume hint when present), issue-number filtering within those volumes,
and the author refinement, which is skipped when
`utils.find_author_issue_ids` returns `None`. -/
def resolveCandidates (cat : Catalog) (titleTokens : List String)
    (issueNumber : Option String) (volumeId : Option Nat)
    (authors : List String) : List Nat :=
  let candidateVolumeIds := cat.findVolumeIds titleTokens volumeId
  let issueIds := cat.findIssueIds candidateVolumeIds issueNumber
  match cat.findAuthorIssueIds authors with
  | some authorIssueIds => issueIds.filter (fun i => authorIssueIds.contains i)
  | none => issueIds

/-- The worker-pool phase of `Comicvine.identify` (`source.py` lines
184-190): `pool.map(enqueue, issue_ids)` with the shutdown event unset
throughout the run.  Concurrent interleaving only permutes the queue, so
it is modelled as a fold. -/
def pooledRun (cat : Catalog) (issueIds : List Nat) : List IssueMeta :=
  issueIds.foldl (enqueueAppend cat) []

/-- The outcome of one `Comicvine.identify` invocation: the contents of
`result_queue`, the catalog operations performed, and the final state of
the run's internally created `threading.Event` (`none` when no event was
created, `some b` when an event was created and ended with value `b`). -/
structure IdentifyOut where
  results : List IssueMeta
  trace : List FetchOp
  signal : Option Bool
deriving DecidableEq

/-- `Comicvine.identify` (`source.py` lines 144-192).  A present
`comicvine` identifier takes the fast path: a single `enqueue` against a
fresh (unset) `threading.Event`, then return.  Otherwise, when the title
is truthy, resolve candidates and run the worker pool, setting the
`shutdown` event in the `finally` block.  The caller-supplied `abort`
argument is never consulted. -/
def identify (cat : Catalog) (abort : Bool) (title : Option String)
    (authors : List String) (identifiers : List (String × Nat)) :
    IdentifyOut :=
  let comicvineId : Option Nat :=
    if identifiers = [] then none else lookupId identifiers "comicvine"
  match comicvineId with
  | some x =>
      let st := enqueueStep cat ([], []) x
      ⟨st.1, st.2, some false⟩
  | none =>
    match title with
    | none => ⟨[], [], none⟩
    | some t =>
      if t = "" then ⟨[], [], none⟩
      else
        let volumeId : Option Nat :=
          if identifiers = [] then none
          else lookupId identifiers "comicvine-volume"
        let parsed := normalised_title cat.getTitleTokens t
        let issueIds :=
          resolveCandidates cat parsed.2 parsed.1 volumeId authors
        ⟨pooledRun cat issueIds,
         [FetchOp.volumeSearch, FetchOp.issueFilter, FetchOp.authorLookup]
           ++ issueIds.map FetchOp.issueLookup,
         some true⟩

/-- `Comicvine.download_cover` (`source.py` lines 194-209): when the
identifiers map is truthy and holds a `comicvine` key, look up the cover
URLs and download each one, dropping any URL whose download fails
(`try`/`except` around `browser.open_novisit`); otherwise do nothing. -/
def download_cover (cat : Catalog) (abort : Bool) (title : Option String)
    (authors : List String) (identifiers : List (String × Nat))
    (getBestCover : Bool) : List (List Nat) :=
  if identifiers = [] then []
  else
    match lookupId identifiers "comicvine" with
    | some x =>
        (cat.lookupIssueImageUrls x getBestCover).filterMap cat.openNovisit
    | none => []

/-! ## Ranking engine (modelled from the spec, `ranking.keygen`) -/

/-- The rank key: a lexicographic tuple, most significant component
first — identifier exactness, issue-number match, title similarity,
author overlap, completeness, and the comicvine id as the final
tiebreak. -/
abbrev RankKey : Type := Nat ×ₗ (Nat ×ₗ (Nat ×ₗ (Nat ×ₗ (Nat ×ₗ Nat))))

/-- Modelled from the spec: token split used by the ranking engine to
compare titles (the `ranking` module is not under `src/`). -/
def splitTokens (s : String) : List String := s.splitOn " "

/-- Numeric reading of an issue-number string (zero when unparsable). -/
def numValue (s : String) : Nat := s.toNat?.getD 0

/-- Absolute difference of the numeric values of two issue-number
strings. -/
def numDist (a b : String) : Nat :=
  max (numValue a - numValue b) (numValue b - numValue a)

/-- Modelled from the spec: identifier-exactness component of
`ranking.keygen` — `0` when the supplied comicvine id equals the
candidate's id, a penalty otherwise. -/
def idScore (identifiers : List (String × Nat)) (md : IssueMeta) : Nat :=
  match lookupId identifiers "comicvine" with
  | some x => if x = md.cvid then 0 else 1
  | none => 1

/-- Modelled from the spec: issue-number component of `ranking.keygen` —
a reward for a match, a penalty proportional to the difference on a
mismatch, neutral when no issue number was parsed. -/
def issueScore (issueNumber : Option String) (md : IssueMeta) : Nat :=
  match issueNumber with
  | some n => numDist n md.issueNumber
  | none => 0

/-- Modelled from the spec: title-similarity component of
`ranking.keygen` — exact token match best, then substring, then a
token-overlap ratio. -/
def titleScore (titleTokens : List String) (md : IssueMeta) : Nat :=
  let candTokens := splitTokens md.title
  if titleTokens = candTokens then 0
  else if titleTokens <:+: candTokens ∨ candTokens <:+: titleTokens then 1
  else 2 + (titleTokens.length -
    (titleTokens.filter (fun t => candTokens.contains t)).length)

/-- Modelled from the spec: author-overlap component of
`ranking.keygen` — neutral when no authors were given, otherwise the
number of query authors missing from the candidate. -/
def authorScore (authors : List String) (md : IssueMeta) : Nat :=
  if authors = [] then 0
  else authors.length -
    (authors.filter (fun a => md.authors.contains a)).length

/-- Modelled from the spec: completeness tiebreak of `ranking.keygen` —
candidates with a known publication date sort first, all else equal. -/
def complScore (md : IssueMeta) : Nat :=
  if md.pubdate.isSome then 0 else 1

/-- Modelled from the spec: `ranking.keygen` (the `ranking` module is
not under `src/`; §4.4 of the spec fixes its factors and their
significance order).  Produces the lexicographic rank key of a candidate
against the query, ties broken by the candidate's comicvine id. -/
def keygen (identifiers : List (String × Nat)) (issueNumber : Option String)
    (titleTokens : List String) (authors : List String)
    (md : IssueMeta) : RankKey :=
  toLex (idScore identifiers md,
    toLex (issueScore issueNumber md,
      toLex (titleScore titleTokens md,
        toLex (authorScore authors md,
          toLex (complScore md, md.cvid)))))

/-- `Comicvine.identify_results_keygen` (`source.py` lines 133-142):
normalise the query title once and return the keying function used to
sort results (an absent title is the empty string). -/
def identify_results_keygen (tok : String → List String)
    (title : Option String) (authors : List String)
    (identifiers : List (String × Nat)) : IssueMeta → RankKey :=
  let parsed := normalised_title tok (title.getD "")
  fun md => keygen identifiers parsed.1 parsed.2 authors md

/-- The comparison relation induced by the rank key of a query. -/
def rankLe (key : IssueMeta → RankKey) (a b : IssueMeta) : Prop :=
  key a ≤ key b

instance (key : IssueMeta → RankKey) : DecidableRel (rankLe key) :=
  fun a b => inferInstanceAs (Decidable (key a ≤ key b))

/-- The final sort of the result collection performed by the caller with
the key from `Comicvine.identify_results_keygen` (`source.py` line
116). -/
def sortResults (tok : String → List String) (title : Option String)
    (authors : List String) (identifiers : List (String × Nat))
    (results : List IssueMeta) : List IssueMeta :=
  results.insertionSort (rankLe (identify_results_keygen tok title authors identifiers))

/-! ## Parser lemmas -/

theorem drop_length_takeWhile (p : Char → Bool) :
    ∀ l : List Char, l.drop (l.takeWhile p).length = l.dropWhile p
  | [] => rfl
  | c :: rest => by
    by_cases h : p c
    · simp [List.takeWhile_cons, List.dropWhile_cons, h,
        drop_length_takeWhile p rest]
    · simp [List.takeWhile_cons, List.dropWhile_cons, h]

theorem dropWhile_append_cons_space (p : Char → Bool) (hp : p ' ' = false)
    (t r : List Char) :
    (t ++ ' ' :: r).dropWhile p = t.dropWhile p ++ ' ' :: r := by
  rw [List.dropWhile_append]
  split
  next h =>
    rw [List.isEmpty_iff] at h
    rw [h, List.dropWhile_cons, hp]
    simp
  next h => rfl

theorem head_dropWhile_space_ne_paren (NN r : List Char) (hNN : NN ≠ [])
    (hnum : ∀ c ∈ NN, isNumChar c = true) :
    ∀ (l : List Char), '(' ∉ l →
      ((l ++ ' ' :: (NN ++ r)).dropWhile (fun x => x = ' ')).head? ≠ some '('
  | [], _ => by
    cases NN with
    | nil => exact absurd rfl hNN
    | cons d NN' =>
      have hd : isNumChar d = true := hnum d (List.mem_cons_self d NN')
      have hd' : ¬(d = ' ') := by
        intro he; rw [he] at hd; simp [isNumChar] at hd
      have hdp : d ≠ '(' := by
        intro he; rw [he] at hd; simp [isNumChar] at hd
      simp [List.dropWhile_cons, hd']
      exact fun he => hdp he
  | e :: l', hmem => by
    have he : e ≠ '(' := fun h => hmem (h ▸ List.mem_cons_self e l')
    have hl' : '(' ∉ l' := fun h => hmem (List.mem_cons_of_mem e h)
    by_cases hsp : e = ' '
    · subst hsp
      have hstep : ((' ' :: l') ++ ' ' :: (NN ++ r)).dropWhile (fun x => x = ' ')
          = (l' ++ ' ' :: (NN ++ r)).dropWhile (fun x => x = ' ') := by
        simp [List.dropWhile_cons]
      rw [hstep]
      exact head_dropWhile_space_ne_paren NN r hNN hnum l' hl'
    · have hstep : ((e :: l') ++ ' ' :: (NN ++ r)).dropWhile (fun x => x = ' ')
          = e :: (l' ++ ' ' :: (NN ++ r)) := by
        simp [List.dropWhile_cons, hsp]
      rw [hstep]
      intro hcontra
      exact he (Option.some.inj hcontra)

theorem issueTrigger_not_space {c : Char} (hc : ¬(c = ' ')) (rest : List Char) :
    issueTrigger (c :: rest) = none := by
  unfold issueTrigger
  simp [hc]

theorem issueTrigger_space (R : List Char) :
    issueTrigger (' ' :: R) =
      if R.takeWhile isNumChar = [] then none
      else if ((R.dropWhile isNumChar).dropWhile (fun x => x = ' ')).head? =
          some '(' then
        some (R.takeWhile isNumChar)
      else none := by
  rw [← drop_length_takeWhile isNumChar R]
  rfl

theorem findIssueSplit_cons (c : Char) (rest : List Char) :
    findIssueSplit (c :: rest) =
      match issueTrigger (c :: rest) with
      | some num => some ([c], num)
      | none => (findIssueSplit rest).map (fun p => (c :: p.1, p.2)) := rfl

theorem findIssueSplit_pattern (NN m : List Char) (hNN : NN ≠ [])
    (hnum : ∀ c ∈ NN, isNumChar c = true) :
    ∀ (t : List Char), '(' ∉ t →
      findIssueSplit (t ++ ' ' :: (NN ++ ' ' :: '(' :: m)) =
        some (t ++ [' '], NN)
  | [], _ => by
    rw [List.nil_append, findIssueSplit_cons, issueTrigger_space]
    have htake : (NN ++ ' ' :: '(' :: m).takeWhile isNumChar = NN := by
      rw [List.takeWhile_append_of_pos hnum]
      simp [List.takeWhile_cons, isNumChar]
    have hdrop : (NN ++ ' ' :: '(' :: m).dropWhile isNumChar = ' ' :: '(' :: m := by
      rw [List.dropWhile_append_of_pos hnum]
      simp [List.dropWhile_cons, isNumChar]
    rw [htake, hdrop]
    simp [hNN, List.dropWhile_cons]
  | c :: t', hmem => by
    have hcp : c ≠ '(' := fun h => hmem (h ▸ List.mem_cons_self c t')
    have ht' : '(' ∉ t' := fun h => hmem (List.mem_cons_of_mem c h)
    have ihres := findIssueSplit_pattern NN m hNN hnum t' ht'
    have htrig : issueTrigger (c :: (t' ++ ' ' :: (NN ++ ' ' :: '(' :: m))) = none := by
      by_cases hsp : c = ' '
      · subst hsp
        rw [issueTrigger_space]
        by_cases hne : (t' ++ ' ' :: (NN ++ ' ' :: '(' :: m)).takeWhile isNumChar = []
        · simp [hne]
        · rw [if_neg hne]
          rw [dropWhile_append_cons_space isNumChar (by simp [isNumChar]) t']
          have hsub : '(' ∉ t'.dropWhile isNumChar := fun h =>
            ht' ((List.dropWhile_sublist isNumChar).subset h)
          have := head_dropWhile_space_ne_paren NN (' ' :: '(' :: m) hNN hnum
            (t'.dropWhile isNumChar) hsub
          rw [if_neg this]
      · exact issueTrigger_not_space hsp _
    rw [List.cons_append, findIssueSplit_cons, htrig]
    simp only [ihres, Option.map_some]
    rfl

theorem paren_mem_of_issueTrigger (c : Char) (rest : List Char)
    (h : issueTrigger (c :: rest) ≠ none) : '(' ∈ rest := by
  unfold issueTrigger at h
  by_cases hc : c = ' '
  · simp only [hc, if_pos rfl] at h
    by_cases hne : rest.takeWhile isNumChar = []
    · simp [hne] at h
    · simp only [hne, if_neg hne, ite_eq_right_iff] at h
      by_cases hh : (((rest.drop (rest.takeWhile isNumChar).length).dropWhile
          (fun x => x = ' '))).head? = some '('
      · have hmem : '(' ∈ (rest.drop (rest.takeWhile isNumChar).length).dropWhile
            (fun x => x = ' ') := by
          rcases List.head?_eq_some_iff.mp hh with ⟨ys, hys⟩
          rw [hys]; exact List.mem_cons_self _ _
        have h1 : '(' ∈ rest.drop (rest.takeWhile isNumChar).length :=
          (List.dropWhile_sublist _).subset hmem
        exact (List.drop_sublist _ _).subset h1
      · simp [hh] at h
  · simp [hc] at h

theorem findIssueSplit_eq_none_of_no_paren :
    ∀ (l : List Char), '(' ∉ l → findIssueSplit l = none
  | [], _ => rfl
  | c :: rest, hmem => by
    have hrest : '(' ∉ rest := fun h => hmem (List.mem_cons_of_mem c h)
    have htrig : issueTrigger (c :: rest) = none := by
      by_cases h : issueTrigger (c :: rest) = none
      · exact h
      · exact absurd (paren_mem_of_issueTrigger c rest h) hrest
    rw [findIssueSplit_cons, htrig, findIssueSplit_eq_none_of_no_paren rest hrest]
    rfl

/-! ## Ranking lemmas -/

theorem eq_of_perm_of_sorted_of_antisymm_mem {α : Type} {r : α → α → Prop} :
    ∀ {l₁ l₂ : List α}, l₁.Perm l₂ → l₁.Sorted r → l₂.Sorted r →
      (∀ a ∈ l₁, ∀ b ∈ l₁, r a b → r b a → a = b) → l₁ = l₂
  | [], l₂, hp, _, _, _ => (List.Perm.eq_nil hp.symm).symm
  | a :: t, [], hp, _, _, _ => absurd (List.Perm.eq_nil hp) (by simp)
  | a :: t, b :: t₂, hp, hs₁, hs₂, hanti => by
    have ha2 : a ∈ b :: t₂ := hp.subset (List.mem_cons_self a t)
    have hb1 : b ∈ a :: t := hp.symm.subset (List.mem_cons_self b t₂)
    have hab : a = b := by
      rcases List.mem_cons.mp ha2 with h | h
      · exact h
      · rcases List.mem_cons.mp hb1 with h' | h'
        · exact h'.symm
        · exact hanti a (List.mem_cons_self a t) b (List.mem_cons_of_mem a h')
            (List.rel_of_sorted_cons hs₁ b h')
            (List.rel_of_sorted_cons hs₂ a h)
    subst hab
    have htail := eq_of_perm_of_sorted_of_antisymm_mem hp.cons_inv
      hs₁.of_cons hs₂.of_cons
      (fun x hx y hy => hanti x (List.mem_cons_of_mem a hx)
        y (List.mem_cons_of_mem a hy))
    rw [htail]

/-- The last (tiebreak) component of the rank key is the candidate's
comicvine id, so equal keys force equal ids. -/
theorem cvid_eq_of_keygen_eq (identifiers : List (String × Nat))
    (issueNumber : Option String) (titleTokens : List String)
    (authors : List String) (a b : IssueMeta)
    (h : keygen identifiers issueNumber titleTokens authors a =
      keygen identifiers issueNumber titleTokens authors b) :
    a.cvid = b.cvid :=
  congrArg
    (fun k : RankKey =>
      (ofLex (ofLex (ofLex (ofLex (ofLex k).2).2).2).2).2) h

/-! ## Claim theorems -/

/-- Claim C1: for every query whose identifiers map contains a `comicvine`
key with a non-`None` value `x`, `identify` performs exactly one direct
issue lookup for `x` — the result collection has at most one entry,
namely the issue with id `x` when found and nothing otherwise — and
returns without any volume search, issue-number filtering, or author
resolution. -/
theorem identify_direct_lookup_fast_path (cat : Catalog) (abort : Bool)
    (title : Option String) (authors : List String)
    (identifiers : List (String × Nat)) (x : Nat)
    (h : lookupId identifiers "comicvine" = some x) :
    identify cat abort title authors identifiers =
      ⟨((cat.buildMeta x).map cat.clean).toList, [FetchOp.issueLookup x],
        some false⟩ ∧
    (identify cat abort title authors identifiers).results.length ≤ 1 := by
  have hne : identifiers ≠ [] := by
    intro he
    rw [he] at h
    exact Option.noConfusion h
  have heq : identify cat abort title authors identifiers =
      ⟨((cat.buildMeta x).map cat.clean).toList, [FetchOp.issueLookup x],
        some false⟩ := by
    unfold identify
    rw [if_neg hne, h]
    simp [enqueueStep, enqueueAppend]
  refine ⟨heq, ?_⟩
  rw [heq]
  cases cat.buildMeta x <;> simp

/-- Witness for C1: a two-key catalog where issue 7 exists. -/
theorem identify_direct_lookup_fast_path_witness :
    lookupId [("comicvine", 7)] "comicvine" = some 7 ∧
    identify
      ⟨fun _ => [], fun i => if i = 7 then
          some ⟨7, 1, "T", "1", [], "P", none, "", []⟩ else none,
        fun md => md, fun _ _ => [], fun _ _ => [], fun _ => none,
        fun _ _ => [], fun _ => none⟩
      false (some "x") [] [("comicvine", 7)] =
      ⟨[⟨7, 1, "T", "1", [], "P", none, "", []⟩], [FetchOp.issueLookup 7],
        some false⟩ :=
  ⟨by decide,
   (identify_direct_lookup_fast_path _ false (some "x") []
     [("comicvine", 7)] 7 (by decide)).1⟩

/-- Claim C3: when the author-lookup collaborator returns no constraint
information (`None`), the candidate set equals the one produced by volume
search and issue-number filtering alone — the author filter is skipped,
not an emptying intersection. -/
theorem author_unresolved_skips_filter (cat : Catalog)
    (titleTokens : List String) (issueNumber : Option String)
    (volumeId : Option Nat) (authors : List String)
    (h : cat.findAuthorIssueIds authors = none) :
    resolveCandidates cat titleTokens issueNumber volumeId authors =
      cat.findIssueIds (cat.findVolumeIds titleTokens volumeId) issueNumber := by
  unfold resolveCandidates
  rw [h]

/-- Witness for C3: a catalog whose author lookup resolves nothing. -/
theorem author_unresolved_skips_filter_witness :
    Catalog.findAuthorIssueIds
      ⟨fun _ => [], fun _ => none, fun md => md, fun _ _ => [3, 4],
        fun _ _ => [5, 6], fun _ => none, fun _ _ => [], fun _ => none⟩
      ["Some Author"] = none ∧
    resolveCandidates
      ⟨fun _ => [], fun _ => none, fun md => md, fun _ _ => [3, 4],
        fun _ _ => [5, 6], fun _ => none, fun _ _ => [], fun _ => none⟩
      ["tok"] (some "1") none ["Some Author"] = [5, 6] :=
  ⟨rfl,
   author_unresolved_skips_filter _ ["tok"] (some "1") none
     ["Some Author"] rfl⟩

/-- Claim C4: a candidate whose detail fetch fails (modelled, per the
spec's partial-failure policy, as `utils.build_meta` returning nothing)
contributes nothing to the result collection, does not raise out of
`enqueue`, and leaves every sibling candidate's contribution unchanged. -/
theorem failed_fetch_contributes_nothing (cat : Catalog) (f : Nat)
    (h : cat.buildMeta f = none) :
    (∀ (q : List IssueMeta) (tr : List FetchOp),
      enqueue cat false (q, tr) f =
        Except.ok (q, tr ++ [FetchOp.issueLookup f])) ∧
    (∀ l₁ l₂ : List Nat,
      pooledRun cat (l₁ ++ f :: l₂) = pooledRun cat (l₁ ++ l₂)) := by
  constructor
  · intro q tr
    simp [enqueue, enqueueStep, enqueueAppend, h]
  · intro l₁ l₂
    unfold pooledRun
    rw [List.foldl_append, List.foldl_append, List.foldl_cons]
    have hstep : enqueueAppend cat (List.foldl (enqueueAppend cat) [] l₁) f =
        List.foldl (enqueueAppend cat) [] l₁ := by
      simp [enqueueAppend, h]
    rw [hstep]

/-- Witness for C4: issue 9 fails to build while issues 1 and 2 succeed. -/
theorem failed_fetch_contributes_nothing_witness :
    Catalog.buildMeta
      ⟨fun _ => [], fun i => if i = 9 then none else
          some ⟨i, 1, "T", "1", [], "P", none, "", []⟩,
        fun md => md, fun _ _ => [], fun _ _ => [], fun _ => none,
        fun _ _ => [], fun _ => none⟩ 9 = none ∧
    pooledRun
      ⟨fun _ => [], fun i => if i = 9 then none else
          some ⟨i, 1, "T", "1", [], "P", none, "", []⟩,
        fun md => md, fun _ _ => [], fun _ _ => [], fun _ => none,
        fun _ _ => [], fun _ => none⟩ ([1] ++ 9 :: [2]) =
    pooledRun
      ⟨fun _ => [], fun i => if i = 9 then none else
          some ⟨i, 1, "T", "1", [], "P", none, "", []⟩,
        fun md => md, fun _ _ => [], fun _ _ => [], fun _ => none,
        fun _ _ => [], fun _ => none⟩ ([1] ++ [2]) :=
  ⟨by decide,
   (failed_fetch_contributes_nothing _ 9 (by decide)).2 [1] [2]⟩

/-- Claim C8: `identify` and `download_cover` invoked with an absent or
empty title, no authors and no identifiers return normally with an empty
result collection. -/
theorem empty_query_degrades_to_no_results (cat : Catalog)
    (abort getBestCover : Bool) :
    identify cat abort none [] [] = ⟨[], [], none⟩ ∧
    identify cat abort (some "") [] [] = ⟨[], [], none⟩ ∧
    download_cover cat abort none [] [] getBestCover = [] :=
  ⟨rfl, rfl, rfl⟩

/-- Claim C10: `identify` never reads its `abort` argument — two runs
differing only in `abort` perform the same lookups, append the same
results and leave the internal cancellation event in the same state, so
external cancellation has no effect on a run. -/
theorem identify_independent_of_abort (cat : Catalog)
    (title : Option String) (authors : List String)
    (identifiers : List (String × Nat)) (abort₁ abort₂ : Bool) :
    identify cat abort₁ title authors identifiers =
      identify cat abort₂ title authors identifiers := rfl

/-- Claim C2 (amended): once an `enqueue` call observes the shutdown
event set, it raises without appending and without starting a fetch; and
on the pooled path the coordinator leaves the shutdown event set when
the operation ends.  (On the direct-identifier fast path the freshly
created event remains unset — see the counterexample.) -/
theorem shutdown_blocks_append_and_pool_sets_signal (cat : Catalog) :
    (∀ (st : List IssueMeta × List FetchOp) (i : Nat),
      enqueue cat true st i = Except.error ()) ∧
    (∀ (abort : Bool) (t : String) (authors : List String)
        (identifiers : List (String × Nat)),
      t ≠ "" → lookupId identifiers "comicvine" = none →
      (identify cat abort (some t) authors identifiers).signal =
        some true) := by
  constructor
  · intro st i
    rfl
  · intro abort t authors identifiers ht hid
    by_cases hne : identifiers = []
    · subst hne
      simp [identify, ht]
    · simp [identify, hne, hid, ht]

/-- Witness for C2 (amended claim). -/
theorem shutdown_blocks_append_and_pool_sets_signal_witness :
    enqueue
      ⟨fun _ => [], fun _ => none, fun md => md, fun _ _ => [],
        fun _ _ => [], fun _ => none, fun _ _ => [], fun _ => none⟩
      true ([], []) 3 = Except.error () ∧
    (identify
      ⟨fun _ => [], fun _ => none, fun md => md, fun _ _ => [],
        fun _ _ => [], fun _ => none, fun _ _ => [], fun _ => none⟩
      false (some "dog") [] []).signal = some true :=
  ⟨(shutdown_blocks_append_and_pool_sets_signal _).1 ([], []) 3,
   (shutdown_blocks_append_and_pool_sets_signal _).2 false "dog" [] []
     (by decide) rfl⟩

/-- Counterexample to C2 as stated: on the direct-identifier fast path,
`identify` creates a fresh `threading.Event`, never sets it, and returns
— the operation ends with the cancellation signal unset, so the claim's
"the signal is set when the overall operation ends" fails for this
invocation. -/
theorem identify_fast_path_ends_signal_unset :
    (identify
      ⟨fun _ => [], fun _ => none, fun md => md, fun _ _ => [],
        fun _ _ => [], fun _ => none, fun _ _ => [], fun _ => none⟩
      false (some "x") [] [("comicvine", 7)]).signal = some false := by
  decide

/-- Claim C5: when the query supplies a comicvine identifier, the rank
key of a candidate whose id equals it is strictly smaller — sorts
strictly earlier — than the rank key of any candidate whose id does not,
regardless of every other scoring factor. -/
theorem matching_id_sorts_strictly_first (identifiers : List (String × Nat))
    (issueNumber : Option String) (titleTokens : List String)
    (authors : List String) (x : Nat) (c₁ c₂ : IssueMeta)
    (hx : lookupId identifiers "comicvine" = some x)
    (h₁ : c₁.cvid = x) (h₂ : c₂.cvid ≠ x) :
    keygen identifiers issueNumber titleTokens authors c₁ <
      keygen identifiers issueNumber titleTokens authors c₂ := by
  have s₁ : idScore identifiers c₁ = 0 := by
    simp [idScore, hx, h₁]
  have s₂ : idScore identifiers c₂ = 1 := by
    simp only [idScore, hx]
    rw [if_neg (fun he => h₂ he.symm)]
  unfold keygen
  rw [Prod.Lex.lt_iff]
  left
  show idScore identifiers c₁ < idScore identifiers c₂
  rw [s₁, s₂]
  exact Nat.zero_lt_one

/-- Witness for C5: candidate with id 5 beats a candidate with id 6 that
wins on every other factor. -/
theorem matching_id_sorts_strictly_first_witness :
    lookupId [("comicvine", 5)] "comicvine" = some 5 ∧
    IssueMeta.cvid ⟨5, 1, "Other", "9", [], "P", none, "", []⟩ = 5 ∧
    IssueMeta.cvid ⟨6, 1, "The Title", "1", ["A"], "P", some 2010, "", []⟩ ≠ 5 ∧
    keygen [("comicvine", 5)] (some "1") ["The", "Title"] ["A"]
        ⟨5, 1, "Other", "9", [], "P", none, "", []⟩ <
      keygen [("comicvine", 5)] (some "1") ["The", "Title"] ["A"]
        ⟨6, 1, "The Title", "1", ["A"], "P", some 2010, "", []⟩ :=
  ⟨by decide, by decide, by decide,
   matching_id_sorts_strictly_first [("comicvine", 5)] (some "1")
     ["The", "Title"] ["A"] 5 _ _ (by decide) (by decide) (by decide)⟩

/-- Claim C9: the rank key is a deterministic function of query and
candidate with ties broken by identifier value, so two result
collections of the same run differing only in arrival order (and with
distinct candidate ids) sort into identical sequences. -/
theorem identical_queries_identical_order (tok : String → List String)
    (title : Option String) (authors : List String)
    (identifiers : List (String × Nat)) (l₁ l₂ : List IssueMeta)
    (hperm : l₁.Perm l₂)
    (hids : ∀ a ∈ l₁, ∀ b ∈ l₁, a ≠ b → a.cvid ≠ b.cvid) :
    sortResults tok title authors identifiers l₁ =
      sortResults tok title authors identifiers l₂ := by
  haveI : IsTotal IssueMeta
      (rankLe (identify_results_keygen tok title authors identifiers)) :=
    ⟨fun a b => le_total _ _⟩
  haveI : IsTrans IssueMeta
      (rankLe (identify_results_keygen tok title authors identifiers)) :=
    ⟨fun _ _ _ hab hbc => le_trans hab hbc⟩
  refine @eq_of_perm_of_sorted_of_antisymm_mem IssueMeta
    (rankLe (identify_results_keygen tok title authors identifiers))
    _ _ ?_ ?_ ?_ ?_
  · exact (List.perm_insertionSort _ l₁).trans
      (hperm.trans (List.perm_insertionSort _ l₂).symm)
  · exact List.sorted_insertionSort _ l₁
  · exact List.sorted_insertionSort _ l₂
  · intro a ha b hb hab hba
    have ha' : a ∈ l₁ := (List.perm_insertionSort _ l₁).subset ha
    have hb' : b ∈ l₁ := (List.perm_insertionSort _ l₁).subset hb
    by_contra hne
    have hkey : identify_results_keygen tok title authors identifiers a =
        identify_results_keygen tok title authors identifiers b :=
      le_antisymm hab hba
    exact hids a ha' b hb' hne
      (cvid_eq_of_keygen_eq identifiers
        (normalised_title tok (title.getD "")).1
        (normalised_title tok (title.getD "")).2 authors a b hkey)

/-- Witness for C9: two arrival orders of the same two results sort
identically. -/
theorem identical_queries_identical_order_witness :
    List.Perm
      [(⟨1, 1, "A", "1", [], "P", none, "", []⟩ : IssueMeta),
        ⟨2, 1, "B", "2", [], "P", none, "", []⟩]
      [⟨2, 1, "B", "2", [], "P", none, "", []⟩,
        ⟨1, 1, "A", "1", [], "P", none, "", []⟩] ∧
    sortResults (fun s => [s]) none [] []
        [⟨1, 1, "A", "1", [], "P", none, "", []⟩,
          ⟨2, 1, "B", "2", [], "P", none, "", []⟩] =
      sortResults (fun s => [s]) none [] []
        [⟨2, 1, "B", "2", [], "P", none, "", []⟩,
          ⟨1, 1, "A", "1", [], "P", none, "", []⟩] :=
  ⟨by decide,
   identical_queries_identical_order (fun s => [s]) none [] [] _ _
     (by decide) (by decide)⟩

/-- Claim C6: a raw title of the form `<title> NN (<metadata>)` — a
whitespace-preceded numeric token followed by a bracketed group — yields
`issue_number` equal to `NN` with leading zeros stripped (decimal
fraction preserved), with the tokenizer invoked on the title up to and
including the whitespace before the numeric token; in particular the
Magnus test scenario. -/
theorem normalise_extracts_issue_number {α : Type} (tok : String → α)
    (t NN m : List Char) (hparen : '(' ∉ t) (hNN : NN ≠ [])
    (hnum : ∀ c ∈ NN, isNumChar c = true) :
    normalised_title tok (String.mk (t ++ ' ' :: (NN ++ ' ' :: '(' :: m))) =
      (some (String.mk (stripLeadingZeros NN)),
        tok (String.mk (t ++ [' ']))) ∧
    normalised_title tok
        "Magnus, Robot Fighter 01 (2010) (two covers) (Minutemen-DTs)" =
      (some "1", tok "Magnus, Robot Fighter ") := by
  constructor
  · unfold normalised_title
    have htl : (String.mk (t ++ ' ' :: (NN ++ ' ' :: '(' :: m))).toList =
        t ++ ' ' :: (NN ++ ' ' :: '(' :: m) := rfl
    rw [htl, findIssueSplit_pattern NN m hNN hnum t hparen]
  · unfold normalised_title
    have h1 : findIssueSplit
        "Magnus, Robot Fighter 01 (2010) (two covers) (Minutemen-DTs)".toList =
        some ("Magnus, Robot Fighter ".toList, "01".toList) := by decide
    rw [h1]
    show (some (String.mk (stripLeadingZeros "01".toList)),
        tok (String.mk "Magnus, Robot Fighter ".toList)) =
      (some "1", tok "Magnus, Robot Fighter ")
    have h2 : String.mk (stripLeadingZeros "01".toList) = "1" := by decide
    rw [h2]
    rfl

/-- Witness for C6: the Magnus, Robot Fighter test scenario as an
instance of the general pattern. -/
theorem normalise_extracts_issue_number_witness :
    ('(' ∉ "Magnus, Robot Fighter".toList) ∧
    ("01".toList ≠ []) ∧
    (∀ c ∈ "01".toList, isNumChar c = true) ∧
    normalised_title (fun s => s)
        "Magnus, Robot Fighter 01 (2010) (two covers) (Minutemen-DTs)" =
      (some "1", "Magnus, Robot Fighter ") :=
  ⟨by decide, by decide, by decide,
   (normalise_extracts_issue_number (fun s => s)
     "Magnus, Robot Fighter".toList "01".toList
     "2010) (two covers) (Minutemen-DTs)".toList
     (by decide) (by decide) (by decide)).2⟩

/-- Claim C7: an empty raw title yields `(None, tokenizer(''))` without
raising, and a title containing no bracket-after-number pattern (no
bracket at all suffices) yields issue number `None` with the tokenizer
applied to the unmodified title. -/
theorem normalise_empty_and_no_pattern {α : Type} (tok : String → α)
    (s : String) (h : '(' ∉ s.toList) :
    normalised_title tok "" = (none, tok "") ∧
    normalised_title tok s = (none, tok s) := by
  refine ⟨rfl, ?_⟩
  unfold normalised_title
  rw [findIssueSplit_eq_none_of_no_paren s.toList h]

/-- Witness for C7: the `superdog in space` test scenario. -/
theorem normalise_empty_and_no_pattern_witness :
    ('(' ∉ "superdog in space".toList) ∧
    normalised_title (fun s => s) "" = (none, "") ∧
    normalised_title (fun s => s) "superdog in space" =
      (none, "superdog in space") :=
  ⟨by decide,
   (normalise_empty_and_no_pattern (fun s => s) "superdog in space"
     (by decide)).1,
   (normalise_empty_and_no_pattern (fun s => s) "superdog in space"
     (by decide)).2⟩

end Comicvine
